import Mathlib

/-!
Verification of the lint GitHub-action source (src/index.ts): a shallow
embedding of its reporting, batching, change-set and reconciliation logic,
with theorems settling the specification claims.
-/

/-- JavaScript `Array.prototype.slice(start, stop)` for nonnegative indices:
the elements from index `start` (inclusive) to `stop` (exclusive), clamped. -/
def jsSlice (items : List α) (start stop : Nat) : List α :=
  (items.take stop).drop start

/-- JavaScript `x || d` on an optional number: `undefined` and `0` are falsy. -/
def jsOr (x : Option Nat) (d : Nat) : Nat :=
  match x with
  | some n => if n = 0 then d else n
  | none => d

/-- The loop body of `chunks` from src/index.ts:
`for (let i = 0; i < items.length; i += size) chunks.push(items.slice(i, size))`.
`fuel` bounds the iteration count; for `0 < size` the loop performs at most
`items.length` iterations, so `fuel = items.length` reproduces the loop exactly.
Note the source bug: the slice end is `size`, not `i + size`. -/
def chunksAux (items : List α) (size : Nat) : Nat → Nat → List (List α)
  | 0, _ => []
  | fuel + 1, i =>
    if i < items.length then
      jsSlice items i size :: chunksAux items size fuel (i + size)
    else
      []

/-- `chunks` from src/index.ts (the source always calls it with `size = 50`). -/
def chunks (items : List α) (size : Nat) : List (List α) :=
  chunksAux items size items.length 0

/-- One entry of an ESLint JSON result `messages` array, as the source reads it.
`fix` records whether the message carries a fix object (autoFixable). -/
structure Message where
  line : Nat
  column : Nat
  endLine : Option Nat
  endColumn : Option Nat
  severity : Nat
  ruleId : String
  message : String
  fix : Bool
deriving Repr, DecidableEq

/-- One ESLint JSON result entry: a file path plus its messages. -/
structure LintResult where
  filePath : String
  messages : List Message
deriving Repr, DecidableEq

/-- One element of the `annotations` array the source builds for a check-run
update.  Field names follow the source, including the `end_columnn` typo
(the well-formed `end_column` field is never set by the source). -/
structure Annot where
  path : String
  start_line : Nat
  start_column : Nat
  end_line : Nat
  end_columnn : Option Nat
  annot_level : String
  message : String
deriving Repr, DecidableEq

/-- Models `path.relative(workspace, filePath)` for the case the action relies
on: the file path lies under the workspace root, so the root plus a path
separator is stripped off the front. -/
def pathRelative (workspace filePath : String) : String :=
  let wsl := (workspace ++ "/").toList
  let fl := filePath.toList
  if wsl.isPrefixOf fl then String.mk (fl.drop wsl.length) else filePath

/-- Builds one annotation object exactly as the loop body in `runESLint` does:
`end_line` falls back to `line`, `end_columnn` (typo) copies `endColumn`,
`annotation_level` is `failure` for severity 2 and `warning` otherwise. -/
def mkAnnot (fileName : String) (m : Message) : Annot :=
  { path := fileName
    start_line := m.line
    start_column := m.column
    end_line := jsOr m.endLine m.line
    end_columnn := m.endColumn
    annot_level := if m.severity = 2 then "failure" else "warning"
    message := "[" ++ m.ruleId ++ "] " ++ m.message }

/-- The inner message loop of `runESLint`: skips a message when
`message.fix && options.fix`, otherwise counts severity-2 messages and
builds an annotation.  Returns (error count, annotations in order). -/
def processMessages (fixMode : Bool) (fileName : String) : List Message → Nat × List Annot
  | [] => (0, [])
  | m :: rest =>
    if m.fix && fixMode then
      processMessages fixMode fileName rest
    else
      let p := processMessages fixMode fileName rest
      ((if m.severity = 2 then 1 else 0) + p.1, mkAnnot fileName m :: p.2)

/-- The outer result loop of `runESLint`: errors accumulate across all
results, annotations are concatenated in result order. -/
def processResults (fixMode : Bool) (workspace : String) : List LintResult → Nat × List Annot
  | [] => (0, [])
  | r :: rest =>
    let p := processMessages fixMode (pathRelative workspace r.filePath) r.messages
    let q := processResults fixMode workspace rest
    (p.1 + q.1, p.2 ++ q.2)

/-- The payload of one `octa.checks.update` call issued by the source. -/
structure CheckUpdate where
  status : String
  conclusion : String
  title : String
  summary : String
  annots : List Annot
deriving Repr, DecidableEq

/-- The summary string built by `runESLint`:
`errors + " " + (errors === 1 ? "error" : "errors") + " found"`. -/
def summaryText (errors : Nat) : String :=
  toString errors ++ " " ++ (if errors = 1 then "error" else "errors") ++ " found"

/-- The update loop of `runESLint`:
`status: ++index === payloads.length ? "completed" : "in_progress"`, with a
`conclusion` (`errors ? "failure" : "success"`) sent on every update. -/
def issueUpdates (errors total : Nat) : Nat → List (List Annot) → List CheckUpdate
  | _, [] => []
  | index, payload :: rest =>
    { status := if index + 1 = total then "completed" else "in_progress"
      conclusion := if errors = 0 then "success" else "failure"
      title := "ESLint"
      summary := summaryText errors
      annots := payload } :: issueUpdates errors total (index + 1) rest

/-- The reporting phase of `runESLint`: chunk the annotations into payloads of
50 and issue one update per payload. -/
def reportUpdates (errors : Nat) (annots : List Annot) : List CheckUpdate :=
  let payloads := chunks annots 50
  issueUpdates errors payloads.length 0 payloads

/-- The full successful-path reporting pipeline of `runESLint`: translate the
ESLint results into (error count, annotations), then report in chunks. -/
def runESLintUpdates (fixMode : Bool) (workspace : String) (results : List LintResult) : List CheckUpdate :=
  let p := processResults fixMode workspace results
  reportUpdates p.1 p.2

/-- The total error count `runESLint` computes for a list of results. -/
def errorCount (fixMode : Bool) (workspace : String) (results : List LintResult) : Nat :=
  (processResults fixMode workspace results).1

/-- One entry of the pull-request files listing: `{ filename, status }`. -/
structure ChangedFile where
  filename : String
  status : String
deriving Repr, DecidableEq

/-- Models `octa.paginate` on the listFiles endpoint, as the spec documents it:
page through the remote resource, concatenating results in page order. -/
def paginateAll (pages : List (List ChangedFile)) : List ChangedFile :=
  pages.flatten

/-- `getChangedFiles` from src/index.ts, also returning the warnings it logs:
without a PR number it warns and returns empty; otherwise it filters out
`removed` entries and keeps the filenames in the order received. -/
def getChangedFilesW (pr : Option Nat) (pages : List (List ChangedFile)) : List String × List String :=
  match pr with
  | none => (["This is not a PR. Skipping."], [])
  | some _ =>
    ([], ((paginateAll pages).filter (fun f => f.status != "removed")).map (fun f => f.filename))

/-- The file list `getChangedFiles` returns. -/
def getChangedFiles (pr : Option Nat) (pages : List (List ChangedFile)) : List String :=
  (getChangedFilesW pr pages).2

/-- The base64 alphabet. -/
def b64Alphabet : List Char :=
  "ABCDEFGHIJKLMNOPQRSTUVWXYZabcdefghijklmnopqrstuvwxyz0123456789+/".toList

/-- The base64 digit for a 6-bit value. -/
def b64Char (n : Nat) : Char :=
  b64Alphabet.getD n '?'

/-- Standard base64 of a byte sequence, with `=` padding. -/
def base64EncodeBytes : List Nat → List Char
  | [] => []
  | [a] => [b64Char (a / 4), b64Char (a % 4 * 16), '=', '=']
  | [a, b] => [b64Char (a / 4), b64Char (a % 4 * 16 + b / 16), b64Char (b % 16 * 4), '=']
  | a :: b :: c :: rest =>
    b64Char (a / 4) :: b64Char (a % 4 * 16 + b / 16) :: b64Char (b % 16 * 4 + c / 64) ::
      b64Char (c % 64) :: base64EncodeBytes rest

/-- Base64 of a string (byte-level, for the ASCII contents used here).
Models `Buffer.from(contents).toString("base64")` and the encoding the
platform applies to `getContent` responses. -/
def base64Encode (s : String) : String :=
  String.mk (base64EncodeBytes (s.toList.map Char.toNat))

/-- The `file.data` record returned by `octa.repos.getContent`: the platform
API documents `content` as the base64 encoding of the stored file. -/
structure RemoteFile where
  content : String
  sha : String
deriving Repr, DecidableEq

/-- Models `getFileFromBranch` from src/index.ts together with the platform
API contract from the spec: `getFileContents` returns
`{ content(base64), sha }`, so `content` is the base64 encoding of the raw
file stored on the branch (`none` when the file does not exist there). -/
def getFileFromBranch (branchRaw : Option String) (sha : String) : Option RemoteFile :=
  branchRaw.map (fun raw => { content := base64Encode raw, sha := sha })

/-- The payload of one `octa.repos.createOrUpdateFileContents` call. -/
structure FileWrite where
  path : String
  content : String
  message : String
  sha : String
deriving Repr, DecidableEq

/-- `updateFile` from src/index.ts: fetch the remote file and issue a write
when `file && file.data && file.data.content !== contents`.  Returns the
list of remote writes issued (empty or a singleton). -/
def updateFile (remote : Option RemoteFile) (fileName contents message : String) : List FileWrite :=
  match remote with
  | some file =>
    if file.content != contents then
      [{ path := fileName
         content := base64Encode contents
         message := message ++ " " ++ fileName
         sha := file.sha }]
    else
      []
  | none => []

/-- Which fallible operations of a run succeed.  `runESLint` and `runPrettier`
look a binary up, create a check, report inside a try/catch, then commit
locally changed files back; the lookup and the commit-back sit outside the
try/catch in the source. -/
structure Env where
  eslintLookupOk : Bool
  eslintReportOk : Bool
  eslintCommitOk : Bool
  prettierLookupOk : Bool
  prettierRunOk : Bool
  prettierCommitOk : Bool
deriving Repr, DecidableEq

/-- Control-flow trace of `runESLint`: the actions performed, paired with
`true` when the function returns normally and `false` when an exception
escapes it.  The lookup (`getBinary`) runs before the check is created and
outside the try/catch; a reporting failure is caught and turned into a
failure update; the commit-back loop runs after the try/catch and a failure
there escapes the function. -/
def runESLintTrace (env : Env) : List String × Bool :=
  if env.eslintLookupOk then
    let reportTrace :=
      if env.eslintReportOk then ["eslint-report-updates"] else ["eslint-failure-update"]
    if env.eslintCommitOk then
      (["lookup-eslint", "create-check-ESLint"] ++ reportTrace ++ ["eslint-commit-back"], true)
    else
      (["lookup-eslint", "create-check-ESLint"] ++ reportTrace, false)
  else
    (["lookup-eslint"], false)

/-- Control-flow trace of `runPrettier`, with the same structure as
`runESLintTrace`. -/
def runPrettierTrace (env : Env) : List String × Bool :=
  if env.prettierLookupOk then
    let runTrace :=
      if env.prettierRunOk then ["prettier-success-update"] else ["prettier-failure-update"]
    if env.prettierCommitOk then
      (["lookup-prettier", "create-check-Prettier"] ++ runTrace ++ ["prettier-commit-back"], true)
    else
      (["lookup-prettier", "create-check-Prettier"] ++ runTrace, false)
  else
    (["lookup-prettier"], false)

/-- `main` from src/index.ts: fetch the change set; when it is non-empty run
`await runESLint(files)` then `await runPrettier(files)`.  An exception
escaping `runESLint` rejects `main` before `runPrettier` starts, so the
trace stops there. -/
def mainTrace (pr : Option Nat) (pages : List (List ChangedFile)) (env : Env) : List String :=
  let files := getChangedFiles pr pages
  if files.length ≠ 0 then
    let e := runESLintTrace env
    if e.2 then e.1 ++ (runPrettierTrace env).1 else e.1
  else
    []

/-- The single update `runPrettier` issues: the success-path payload when the
formatter ran, the catch-path payload otherwise.  Both carry the output
title `ESLint` in the source. -/
def runPrettierUpdate (ok : Bool) (errMessage errStack : String) : CheckUpdate :=
  if ok then
    { status := "completed", conclusion := "success", title := "ESLint"
      summary := "", annots := [] }
  else
    { status := "completed", conclusion := "failure", title := "ESLint"
      summary := errMessage ++ " " ++ errStack, annots := [] }

/-- A sample annotation, used to exercise the batching loop. -/
def sampleAnnot : Annot :=
  { path := "f.ts", start_line := 1, start_column := 1, end_line := 1
    end_columnn := none, annot_level := "warning", message := "[rule] m" }

/-- 51 sample annotations: one more than a batch holds. -/
def annots51 : List Annot :=
  List.replicate 51 sampleAnnot

/-- A severity-2 (error) ESLint message without a fix. -/
def msgErr : Message :=
  { line := 3, column := 1, endLine := none, endColumn := none, severity := 2
    ruleId := "no-unused-vars", message := "x is unused", fix := false }

/-- An auto-fixable warning message. -/
def msgFixable : Message :=
  { line := 1, column := 1, endLine := none, endColumn := none, severity := 1
    ruleId := "semi", message := "missing semicolon", fix := true }

/-- A result list with a single error in one file. -/
def rs1 : List LintResult :=
  [{ filePath := "/ws/f.ts", messages := [msgErr] }]

/-- The single update the source issues for `rs1`. -/
def u1 : CheckUpdate :=
  { status := "completed", conclusion := "failure", title := "ESLint"
    summary := "1 error found"
    annots := [{ path := "f.ts", start_line := 3, start_column := 1, end_line := 3
                 end_columnn := none, annot_level := "failure"
                 message := "[no-unused-vars] x is unused" }] }

/-- An environment in which only the ESLint commit-back step fails. -/
def envCommitFail : Env :=
  { eslintLookupOk := true, eslintReportOk := true, eslintCommitOk := false
    prettierLookupOk := true, prettierRunOk := true, prettierCommitOk := true }

/-- An environment in which only the ESLint reporting step fails. -/
def envReportFail : Env :=
  { eslintLookupOk := true, eslintReportOk := false, eslintCommitOk := true
    prettierLookupOk := true, prettierRunOk := true, prettierCommitOk := true }

/-- A one-page change set with a single modified file. -/
def pagesOne : List (List ChangedFile) :=
  [[{ filename := "a.ts", status := "modified" }]]

/-! ## Helper lemmas -/

theorem chunksAux_length (items : List α) (size : Nat) (hs : 0 < size) :
    ∀ fuel i, items.length ≤ i + fuel * size →
      (chunksAux items size fuel i).length = (items.length - i + size - 1) / size := by
  intro fuel
  induction fuel with
  | zero =>
    intro i h
    simp only [Nat.zero_mul, Nat.add_zero] at h
    have h0 : items.length - i = 0 := by omega
    simp only [chunksAux, List.length_nil, h0]
    exact (Nat.div_eq_of_lt (by omega)).symm
  | succ fuel ih =>
    intro i h
    rw [Nat.succ_mul] at h
    simp only [chunksAux]
    split
    · rename_i hi
      rw [List.length_cons, ih (i + size) (by omega)]
      have h1 : items.length - i + size - 1 = (items.length - i - 1) + size := by omega
      rw [h1, Nat.add_div_right _ hs]
      have key : (items.length - (i + size) + size - 1) / size = (items.length - i - 1) / size := by
        rcases Nat.le_total size (items.length - i) with hle | hle
        · have e1 : items.length - (i + size) + size - 1 = items.length - i - 1 := by omega
          rw [e1]
        · have e1 : items.length - (i + size) + size - 1 = size - 1 := by omega
          rw [e1, Nat.div_eq_of_lt (by omega), Nat.div_eq_of_lt (by omega)]
      rw [key]
    · rename_i hi
      have h0 : items.length - i = 0 := by omega
      simp only [List.length_nil, h0]
      exact (Nat.div_eq_of_lt (by omega)).symm

theorem chunks_length (items : List α) (size : Nat) (hs : 0 < size) :
    (chunks items size).length = (items.length + size - 1) / size := by
  have hfuel : items.length ≤ 0 + items.length * size :=
    le_trans (Nat.le_mul_of_pos_right items.length hs) (by omega)
  have h := chunksAux_length items size hs items.length 0 hfuel
  simpa [chunks] using h

theorem issueUpdates_length (errors total : Nat) :
    ∀ (payloads : List (List Annot)) (index : Nat),
      (issueUpdates errors total index payloads).length = payloads.length := by
  intro payloads
  induction payloads with
  | nil => intro index; rfl
  | cons p rest ih =>
    intro index
    simp only [issueUpdates, List.length_cons, ih]

theorem issueUpdates_status (errors total : Nat) :
    ∀ (payloads : List (List Annot)) (index i : Nat), i < payloads.length →
      ((issueUpdates errors total index payloads)[i]?).map CheckUpdate.status =
        some (if index + i + 1 = total then "completed" else "in_progress") := by
  intro payloads
  induction payloads with
  | nil =>
    intro index i hi
    simp at hi
  | cons p rest ih =>
    intro index i hi
    cases i with
    | zero =>
      simp [issueUpdates]
    | succ j =>
      have hj : j < rest.length := by simpa using hi
      have h := ih (index + 1) j hj
      have harith : index + 1 + j + 1 = index + (j + 1) + 1 := by omega
      simpa [issueUpdates, harith] using h

theorem issueUpdates_conclusion (errors total : Nat) :
    ∀ (payloads : List (List Annot)) (index : Nat) (u : CheckUpdate),
      u ∈ issueUpdates errors total index payloads →
      u.conclusion = if errors = 0 then "success" else "failure" := by
  intro payloads
  induction payloads with
  | nil =>
    intro index u hu
    simp [issueUpdates] at hu
  | cons p rest ih =>
    intro index u hu
    simp only [issueUpdates, List.mem_cons] at hu
    rcases hu with h | h
    · rw [h]
    · exact ih (index + 1) u h

theorem processMessages_fst (fixMode : Bool) (fileName : String) :
    ∀ msgs : List Message,
      (processMessages fixMode fileName msgs).1 =
        msgs.countP (fun m => !(m.fix && fixMode) && decide (m.severity = 2)) := by
  intro msgs
  induction msgs with
  | nil => rfl
  | cons m rest ih =>
    rw [List.countP_cons]
    cases hfix : m.fix && fixMode with
    | true =>
      obtain ⟨hf, hx⟩ := Bool.and_eq_true_iff.mp hfix
      subst hx
      simp [processMessages, hf, ih]
    | false =>
      by_cases h2 : m.severity = 2 <;> simp [processMessages, hfix, h2, ih]
      omega

theorem processMessages_pos (fixMode : Bool) (fileName : String) (msgs : List Message) :
    0 < (processMessages fixMode fileName msgs).1 ↔
      ∃ m ∈ msgs, (m.fix && fixMode) = false ∧ m.severity = 2 := by
  rw [processMessages_fst, List.countP_pos_iff]
  constructor
  · rintro ⟨a, ha, hp⟩
    rw [Bool.and_eq_true] at hp
    refine ⟨a, ha, ?_, ?_⟩
    · have h1 := hp.1
      rwa [Bool.not_eq_true'] at h1
    · exact of_decide_eq_true hp.2
  · rintro ⟨a, ha, h1, h2⟩
    refine ⟨a, ha, ?_⟩
    rw [Bool.and_eq_true, Bool.not_eq_true']
    exact ⟨h1, decide_eq_true h2⟩

theorem errorCount_cons (fixMode : Bool) (ws : String) (r : LintResult) (rest : List LintResult) :
    errorCount fixMode ws (r :: rest) =
      (processMessages fixMode (pathRelative ws r.filePath) r.messages).1 +
        errorCount fixMode ws rest := rfl

theorem errorCount_pos_iff (fixMode : Bool) (ws : String) :
    ∀ results : List LintResult,
      (0 < errorCount fixMode ws results ↔
        ∃ r ∈ results, ∃ m ∈ r.messages, (m.fix && fixMode) = false ∧ m.severity = 2) := by
  intro results
  induction results with
  | nil => simp [errorCount, processResults]
  | cons r rest ih =>
    rw [errorCount_cons]
    have hsplit :
        0 < (processMessages fixMode (pathRelative ws r.filePath) r.messages).1 +
              errorCount fixMode ws rest ↔
          0 < (processMessages fixMode (pathRelative ws r.filePath) r.messages).1 ∨
            0 < errorCount fixMode ws rest := by omega
    rw [hsplit, processMessages_pos, ih]
    simp [List.exists_mem_cons_iff]

theorem processMessages_skip (fileName : String) (m : Message) (hm : m.fix = true) :
    ∀ xs ys : List Message,
      processMessages true fileName (xs ++ m :: ys) = processMessages true fileName (xs ++ ys) := by
  intro xs ys
  induction xs with
  | nil =>
    simp [processMessages, hm]
  | cons x rest ih =>
    simp only [List.cons_append, processMessages, List.append_eq]
    rw [ih]

theorem processResults_skip (ws fp : String) (m : Message) (hm : m.fix = true)
    (xs ys : List Message) :
    ∀ (before after : List LintResult),
      processResults true ws (before ++ { filePath := fp, messages := xs ++ m :: ys } :: after) =
        processResults true ws (before ++ { filePath := fp, messages := xs ++ ys } :: after) := by
  intro before after
  induction before with
  | nil =>
    simp only [List.nil_append, processResults]
    rw [processMessages_skip (pathRelative ws fp) m hm xs ys]
  | cons b rest ih =>
    simp only [List.cons_append, processResults, List.append_eq]
    rw [ih]

/-! ## Claims -/

/-- C1: the claim says that for an empty diagnostic sequence `report` issues
exactly one update, with status `completed` and conclusion `success`.  The
code does the opposite: `chunks([])` is empty, so the update loop never runs
and zero updates are issued (the run stays `in_progress`).  This theorem
evaluates the code at the failing input: the reporting phase on an empty
annotation list, and the full pipeline on an empty result list and on a
result with no messages, all issue zero updates. -/
theorem c1_empty_report_zero_updates :
    reportUpdates 0 [] = [] ∧
    runESLintUpdates true "/ws" [] = [] ∧
    runESLintUpdates false "/ws" [{ filePath := "/ws/f.ts", messages := [] }] = [] :=
  ⟨rfl, rfl, rfl⟩

/-- C2: the claim says the batches partition the diagnostic sequence
(each ≤50, disjoint, concatenating to the original).  The code slices with
`items.slice(i, size)`, so with 51 items the batches are the first 50
items followed by an empty batch: the 51st item is dropped and the
concatenation has length 50, not 51. -/
theorem c2_chunks_not_partition :
    chunks (List.range 51) 50 = [List.range 50, []] ∧
    (chunks (List.range 51) 50).flatten ≠ List.range 51 ∧
    annots51.length = 51 ∧
    ((reportUpdates 0 annots51).map CheckUpdate.annots).flatten.length = 50 := by
  exact ⟨by decide, by decide, by decide, by decide⟩

/-- C3: for every non-empty annotation list, `report` issues exactly
`ceil(n/50)` updates (at least one), and the status is `completed` exactly
on the last update and `in_progress` on every earlier one. -/
theorem c3_report_update_count_statuses (errors : Nat) (annots : List Annot)
    (h : annots ≠ []) :
    (reportUpdates errors annots).length = (annots.length + 49) / 50 ∧
    0 < (reportUpdates errors annots).length ∧
    ∀ i, i < (reportUpdates errors annots).length →
      ((reportUpdates errors annots)[i]?).map CheckUpdate.status =
        some (if i + 1 = (reportUpdates errors annots).length then "completed"
              else "in_progress") := by
  have hlen : (reportUpdates errors annots).length = (chunks annots 50).length :=
    issueUpdates_length errors (chunks annots 50).length (chunks annots 50) 0
  have hc : (chunks annots 50).length = (annots.length + 49) / 50 := by
    have h50 : annots.length + 50 - 1 = annots.length + 49 := by omega
    rw [chunks_length annots 50 (by omega), h50]
  refine ⟨hlen.trans hc, ?_, ?_⟩
  · rw [hlen, hc]
    have hn : 0 < annots.length := List.length_pos.mpr h
    exact Nat.div_pos (by omega) (by omega)
  · intro i hi
    have hip : i < (chunks annots 50).length := by
      rw [← hlen]
      exact hi
    have hst := issueUpdates_status errors (chunks annots 50).length (chunks annots 50) 0 i hip
    have hz : 0 + i + 1 = i + 1 := by omega
    rw [hz] at hst
    rw [hlen]
    exact hst

/-- C3 witness: with 51 annotations the code issues ceil(51/50) = 2 updates. -/
theorem c3_report_update_count_statuses_witness :
    (reportUpdates 0 annots51).length = (annots51.length + 49) / 50 :=
  (c3_report_update_count_statuses 0 annots51 (by decide)).1

/-- C4: every issued update carries the one conclusion computed from the
total error count: `failure` when some reported (non-suppressed) diagnostic
has severity 2 (error), `success` otherwise. -/
theorem c4_conclusion_from_total_errors (fixMode : Bool) (ws : String)
    (results : List LintResult) (u : CheckUpdate)
    (hu : u ∈ runESLintUpdates fixMode ws results) :
    u.conclusion = (if 0 < errorCount fixMode ws results then "failure" else "success") ∧
    (0 < errorCount fixMode ws results ↔
      ∃ r ∈ results, ∃ m ∈ r.messages, (m.fix && fixMode) = false ∧ m.severity = 2) := by
  constructor
  · have hu2 : u ∈ issueUpdates (errorCount fixMode ws results)
        (chunks (processResults fixMode ws results).2 50).length 0
        (chunks (processResults fixMode ws results).2 50) := hu
    have h := issueUpdates_conclusion (errorCount fixMode ws results)
        (chunks (processResults fixMode ws results).2 50).length
        (chunks (processResults fixMode ws results).2 50) 0 u hu2
    rcases Nat.eq_zero_or_pos (errorCount fixMode ws results) with h0 | h0
    · rw [h, if_pos h0, if_neg (by omega)]
    · rw [h, if_neg (by omega), if_pos h0]
  · exact errorCount_pos_iff fixMode ws results

/-- C4 witness: the single update for one severity-2 message concludes
`failure`. -/
theorem c4_conclusion_from_total_errors_witness :
    u1.conclusion = (if 0 < errorCount false "/ws" rs1 then "failure" else "success") :=
  (c4_conclusion_from_total_errors false "/ws" rs1 u1 (by decide)).1

/-- C5: the claim says `reconcile` writes only when the new local contents
differ from the remote contents, making a second run a no-op.  The code
compares the base64-encoded `content` field of the remote response against
the raw local contents, so for a remote file whose raw contents equal the
local contents (here both `"a"`) the comparison still differs and a write
is issued — on every run. -/
theorem c5_updateFile_writes_unchanged :
    base64Encode "a" ≠ "a" ∧
    updateFile (getFileFromBranch (some "a") "sha0") "a.ts" "a" "style(auto): eslint fix" ≠ [] :=
  ⟨by decide, by decide⟩

/-- C6 counterexample: with a non-empty change set, when the commit-back step
of the ESLint stage fails (it sits outside the stage's try/catch), the
exception escapes `runESLint` and `main` never reaches the Prettier stage:
no Prettier action appears in the trace. -/
theorem c6_commit_failure_blocks_prettier :
    getChangedFiles (some 1) pagesOne ≠ [] ∧
    (runESLintTrace envCommitFail).2 = false ∧
    "lookup-prettier" ∉ mainTrace (some 1) pagesOne envCommitFail := by
  exact ⟨by decide, by decide, by decide⟩

/-- C6 (amended): failures in the try/catch-guarded part of the ESLint stage
(tool invocation, parsing, reporting) do not prevent the Prettier stage;
when the ESLint stage's tool lookup and commit-back succeed, the Prettier
stage is attempted whether or not reporting failed. -/
theorem c6_guarded_failures_still_run_prettier (env : Env) (pr : Nat)
    (pages : List (List ChangedFile))
    (h1 : env.eslintLookupOk = true) (h2 : env.eslintCommitOk = true)
    (h3 : getChangedFiles (some pr) pages ≠ []) :
    "lookup-prettier" ∈ mainTrace (some pr) pages env := by
  have hlen : (getChangedFiles (some pr) pages).length ≠ 0 := by
    intro h0
    exact h3 (List.length_eq_zero.mp h0)
  cases henv : env.eslintReportOk <;> cases hp : env.prettierLookupOk <;>
    cases hq : env.prettierRunOk <;> cases hc : env.prettierCommitOk <;>
      simp [mainTrace, runESLintTrace, runPrettierTrace, h1, h2, henv, hp, hq, hc, hlen]

/-- C6 witness: a reporting failure inside the ESLint stage still lets the
Prettier stage run. -/
theorem c6_guarded_failures_still_run_prettier_witness :
    "lookup-prettier" ∈ mainTrace (some 1) pagesOne envReportFail :=
  c6_guarded_failures_still_run_prettier envReportFail 1 pagesOne rfl rfl (by decide)

/-- C7: without a PR number the change-set provider warns and returns the
empty list, and the orchestrator performs no actions at all: no tool
lookups, no tool invocations, no check-run creations. -/
theorem c7_no_request_short_circuit (pages : List (List ChangedFile)) (env : Env) :
    getChangedFilesW none pages = (["This is not a PR. Skipping."], []) ∧
    mainTrace none pages env = [] :=
  ⟨rfl, rfl⟩

/-- C8: the change set is the remote listing with `removed` entries filtered
out: the result maps the filtered entries to filenames, the filtered list is
a sublist of the pages in received order (no re-sorting), and no surviving
entry has status `removed`. -/
theorem c8_change_set_filter_order (pr : Nat) (pages : List (List ChangedFile)) :
    getChangedFiles (some pr) pages =
      ((paginateAll pages).filter (fun f => f.status != "removed")).map (fun f => f.filename) ∧
    ((paginateAll pages).filter (fun f => f.status != "removed")).Sublist (paginateAll pages) ∧
    ∀ f ∈ (paginateAll pages).filter (fun f => f.status != "removed"),
      f.status ≠ "removed" := by
  refine ⟨rfl, List.filter_sublist _, ?_⟩
  intro f hf
  have hp := List.of_mem_filter hf
  simpa using hp

/-- C8 witness: a modified file survives the filter and is not `removed`. -/
theorem c8_change_set_filter_order_witness :
    ({ filename := "a.ts", status := "modified" } : ChangedFile).status ≠ "removed" :=
  (c8_change_set_filter_order 1 pagesOne).2.2
    { filename := "a.ts", status := "modified" } (by decide)

/-- C9: in fix mode an auto-fixable message is dropped entirely: inserting it
anywhere changes neither the issued updates (so it appears in no batch) nor
the total error count used for the conclusion. -/
theorem c9_fixable_dropped_in_fix_mode (ws fp : String)
    (before after : List LintResult) (xs ys : List Message)
    (m : Message) (hm : m.fix = true) :
    runESLintUpdates true ws
        (before ++ { filePath := fp, messages := xs ++ m :: ys } :: after) =
      runESLintUpdates true ws
        (before ++ { filePath := fp, messages := xs ++ ys } :: after) ∧
    errorCount true ws
        (before ++ { filePath := fp, messages := xs ++ m :: ys } :: after) =
      errorCount true ws
        (before ++ { filePath := fp, messages := xs ++ ys } :: after) := by
  have h := processResults_skip ws fp m hm xs ys before after
  constructor
  · unfold runESLintUpdates
    rw [h]
  · unfold errorCount
    rw [h]

/-- C9 witness: a single auto-fixable message reports the same as no message
at all. -/
theorem c9_fixable_dropped_in_fix_mode_witness :
    runESLintUpdates true "/ws"
        ([] ++ { filePath := "/ws/f.ts", messages := [] ++ msgFixable :: [] } :: []) =
      runESLintUpdates true "/ws"
        ([] ++ { filePath := "/ws/f.ts", messages := [] ++ ([] : List Message) } :: []) :=
  (c9_fixable_dropped_in_fix_mode "/ws" "/ws/f.ts" [] [] [] [] msgFixable rfl).1

/-- C10: both updates `runPrettier` can issue — the success-path one and the
catch-path one — carry the output title `ESLint`, not `Prettier`. -/
theorem c10_prettier_update_title (ok : Bool) (errMessage errStack : String) :
    (runPrettierUpdate ok errMessage errStack).title = "ESLint" ∧
    (runPrettierUpdate ok errMessage errStack).title ≠ "Prettier" := by
  cases ok <;> exact ⟨rfl, show ("ESLint" : String) ≠ "Prettier" from by decide⟩
